import Mathlib

/-!
Verification of the LLM Prompt Repository (a Streamlit application over a
single-table SQLite store).  The repository ships `app.py` (the presentation
layer); the persistence layer `database.py` (class `PromptDatabase`) is not
among the sources, so its operations are modelled from the specification of
the persistence contract.  The presentation-layer dispatch logic (form
validation in the add-prompt form, search/filter dispatch in the browse view)
is translated directly from `app.py`.
-/

/-- A stored prompt record.  Attributes follow §3 of the specification:
`id` is the auto-assigned integer key, `upvotes` an integer counter, and
`created_at` a timestamp; the timestamp is modelled as a natural number (the
store keeps it in a sortable textual form, and only its ordering and
immutability matter to the contract). -/
structure Prompt where
  id : Nat
  title : String
  description : String
  prompt_text : String
  category : String
  tags : String
  use_case : String
  upvotes : Nat
  created_at : Nat
  deriving Repr, DecidableEq

/-- Modelled from the spec: the state of class `PromptDatabase` of
`database.py`, which is absent from the sources.  `prompts` is the single
table in insertion order; `next_id` models the auto-increment key counter
(ids are auto-assigned, unique and never reused). -/
structure PromptDatabase where
  prompts : List Prompt
  next_id : Nat
  deriving Repr, DecidableEq

/-- Modelled from the spec: `add_prompt` of `database.py` (absent from the
sources) inserts a new record with `upvotes = 0` and `created_at` set to the
current time, and returns the newly assigned unique identifier.  The current
time enters as the explicit argument `now`. -/
def add_prompt (db : PromptDatabase)
    (title description prompt_text category tags use_case : String)
    (now : Nat) : Nat × PromptDatabase :=
  let p : Prompt :=
    { id := db.next_id, title := title, description := description,
      prompt_text := prompt_text, category := category, tags := tags,
      use_case := use_case, upvotes := 0, created_at := now }
  (db.next_id, { prompts := db.prompts ++ [p], next_id := db.next_id + 1 })

/-- Modelled from the spec: `get_prompt_count` of `database.py` (absent from
the sources) returns the total number of records currently stored. -/
def get_prompt_count (db : PromptDatabase) : Nat :=
  db.prompts.length

/-- Bump the upvote counter of the record whose id matches, leave any other
record unchanged. -/
def bumpIf (i : Nat) (p : Prompt) : Prompt :=
  if p.id = i then { p with upvotes := p.upvotes + 1 } else p

/-- Modelled from the spec: `upvote_prompt` of `database.py` (absent from the
sources) increments `upvotes` by exactly 1 for the matching record; on an
unknown id it is a silent no-op (no error channel is surfaced). -/
def upvote_prompt (db : PromptDatabase) (i : Nat) : PromptDatabase :=
  { db with prompts := db.prompts.map (bumpIf i) }

/-- Does the second character list occur at the head of the first? -/
def headMatches : List Char → List Char → Bool
  | _, [] => true
  | [], _ :: _ => false
  | c :: cs, d :: ds => c == d && headMatches cs ds

/-- Does the second character list occur as a contiguous run inside the
first? -/
def hasSubChars : List Char → List Char → Bool
  | [], sub => headMatches [] sub
  | c :: cs, sub => headMatches (c :: cs) sub || hasSubChars cs sub

/-- Characters of a string, lower-cased (the `LOWER`/`LIKE` combination of a
case-insensitive SQL substring match). -/
def lowerChars (s : String) : List Char :=
  s.data.map Char.toLower

/-- Case-insensitive substring test: `sub` occurs inside `s` ignoring
case. -/
def ciSubstr (sub s : String) : Bool :=
  hasSubChars (lowerChars s) (lowerChars sub)

/-- A prompt matches a query when the query occurs case-insensitively in its
title or in its prompt text (the contract searches at least these two
fields). -/
def promptMatches (q : String) (p : Prompt) : Bool :=
  ciSubstr q p.title || ciSubstr q p.prompt_text

/-- Modelled from the spec: `search_prompts` of `database.py` (absent from
the sources) keeps exactly the records matched case-insensitively against
title and prompt text, in the store order (no ranking). -/
def search_prompts (db : PromptDatabase) (q : String) : List Prompt :=
  db.prompts.filter (promptMatches q)

/-- Modelled from the spec: `filter_by_category` of `database.py` (absent
from the sources) keeps exactly the records whose `category` equals the
argument; the match is modelled as exact and case-sensitive (the contract
leaves the case policy to the implementer and asks that it be
documented). -/
def filter_by_category (db : PromptDatabase) (c : String) : List Prompt :=
  db.prompts.filter (fun p => p.category == c)

/-- Modelled from the spec: `get_categories` of `database.py` (absent from
the sources) returns the distinct non-empty `category` values observed
across all records, de-duplicated. -/
def get_categories (db : PromptDatabase) : List String :=
  ((db.prompts.map (fun p => p.category)).filter (fun c => !(c == ""))).dedup

/-- Most-recent-first order on prompts: later `created_at` comes first, equal
timestamps are broken by the larger id (the stable secondary criterion). -/
def recencyLE (p q : Prompt) : Bool :=
  decide (q.created_at < p.created_at ∨
    (q.created_at = p.created_at ∧ q.id ≤ p.id))

/-- Modelled from the spec: `get_all_prompts` of `database.py` (absent from
the sources) returns every record ordered by recency, most recently created
first, ties broken by the id. -/
def get_all_prompts (db : PromptDatabase) : List Prompt :=
  db.prompts.mergeSort recencyLE

/-- Look a prompt up by id (first record whose id matches). -/
def find_prompt (db : PromptDatabase) (i : Nat) : Option Prompt :=
  db.prompts.find? (fun p => p.id == i)

/-- Outcome of a submission of the add-prompt form, as `app.py` reports it:
either the validation error message, or the success message carrying the id
returned by `add_prompt`. -/
inductive SubmitResult where
  | validationError
  | added (i : Nat)
  deriving Repr, DecidableEq

/-- The add-prompt form submission handler of `app.py` (lines 195-209): when
`title` or `prompt_text` is empty (Python string falsiness) it reports a
validation error and does not touch the store; otherwise it calls
`db.add_prompt` with the six form fields. -/
def handle_submit (db : PromptDatabase)
    (title description prompt_text category tags use_case : String)
    (now : Nat) : SubmitResult × PromptDatabase :=
  if title = "" ∨ prompt_text = "" then
    (SubmitResult.validationError, db)
  else
    let r := add_prompt db title description prompt_text category tags
      use_case now
    (SubmitResult.added r.1, r.2)

/-- The browse-page fetch dispatch of `app.py` (lines 84-91): a non-empty
search query selects `search_prompts`; otherwise a category other than
"All" selects `filter_by_category`; otherwise `get_all_prompts`. -/
def browse_prompts (db : PromptDatabase)
    (search_query filter_category : String) : List Prompt :=
  if search_query ≠ "" then
    search_prompts db search_query
  else if filter_category ≠ "All" then
    filter_by_category db filter_category
  else
    get_all_prompts db

/-- The operations offered by the persistence layer, as state transitions.
Read operations (`getAll`, `search`, `filterCat`, `getCats`, `getCount`)
are pure queries and leave the store unchanged. -/
inductive Op where
  | add (title description prompt_text category tags use_case : String)
      (now : Nat)
  | upvote (i : Nat)
  | getAll
  | search (q : String)
  | filterCat (c : String)
  | getCats
  | getCount
  deriving Repr, DecidableEq

/-- State effect of one operation on the store. -/
def applyOp (db : PromptDatabase) : Op → PromptDatabase
  | Op.add t d pt c tg u n => (add_prompt db t d pt c tg u n).2
  | Op.upvote i => upvote_prompt db i
  | Op.getAll => db
  | Op.search _ => db
  | Op.filterCat _ => db
  | Op.getCats => db
  | Op.getCount => db

/-- Is the operation an upvote of the given id? -/
def touchesUpvote (o : Op) (i : Nat) : Bool :=
  match o with
  | Op.upvote j => j == i
  | _ => false

/-- Run a sequence of operations from left to right. -/
def runOps (db : PromptDatabase) : List Op → PromptDatabase
  | [] => db
  | o :: os => runOps (applyOp db o) os

/-- The empty store, the state before any submission. -/
def emptyDb : PromptDatabase :=
  { prompts := [], next_id := 1 }

/-- A concrete record used to instantiate the theorems, matching the
worked examples of the specification. -/
def demoPrompt : Prompt :=
  { id := 1, title := "Sentiment Analysis for Interviews", description := "",
    prompt_text := "Classify the sentiment of each quoted answer.",
    category := "Qualitative Analysis", tags := "", use_case := "",
    upvotes := 0, created_at := 5 }

/-- A concrete one-record store used to instantiate the theorems. -/
def demoDb : PromptDatabase :=
  { prompts := [demoPrompt], next_id := 2 }

/-- Two records agree on every field except possibly the upvote counter. -/
def sameRecordExceptUpvotes (p' p : Prompt) : Prop :=
  p'.id = p.id ∧ p'.title = p.title ∧ p'.description = p.description ∧
  p'.prompt_text = p.prompt_text ∧ p'.category = p.category ∧
  p'.tags = p.tags ∧ p'.use_case = p.use_case ∧
  p'.created_at = p.created_at

/-- C1: on a store whose record ids are all below the key counter, a valid
`add_prompt` call appends exactly one new record with `upvotes = 0` and
`created_at` set to the insertion time, returns a never-before-assigned id,
grows `get_prompt_count` by exactly one, keeps every previously stored
record, and re-establishes the key-counter bound (so the id is never
reused by later insertions either). -/
theorem add_prompt_spec (db : PromptDatabase)
    (title description prompt_text category tags use_case : String)
    (now : Nat)
    (hWF : ∀ p ∈ db.prompts, p.id < db.next_id)
    (ht : title ≠ "") (hpt : prompt_text ≠ "") :
    ∃ pnew : Prompt,
      (add_prompt db title description prompt_text category tags use_case
          now).2.prompts = db.prompts ++ [pnew] ∧
      pnew.id = (add_prompt db title description prompt_text category tags
          use_case now).1 ∧
      pnew.upvotes = 0 ∧
      pnew.created_at = now ∧
      pnew.title = title ∧
      pnew.prompt_text = prompt_text ∧
      (∀ p ∈ db.prompts, p.id ≠ pnew.id) ∧
      get_prompt_count (add_prompt db title description prompt_text category
          tags use_case now).2 = get_prompt_count db + 1 ∧
      (∀ p ∈ db.prompts,
        p ∈ (add_prompt db title description prompt_text category tags
          use_case now).2.prompts) ∧
      (∀ p ∈ (add_prompt db title description prompt_text category tags
          use_case now).2.prompts,
        p.id < (add_prompt db title description prompt_text category tags
          use_case now).2.next_id) ∧
      pnew.id + 1 = (add_prompt db title description prompt_text category
          tags use_case now).2.next_id := by
  refine ⟨Prompt.mk db.next_id title description prompt_text category tags
      use_case 0 now,
    rfl, rfl, rfl, rfl, rfl, rfl, ?_, ?_, ?_, ?_, rfl⟩
  · intro p hp
    exact Nat.ne_of_lt (hWF p hp)
  · simp [add_prompt, get_prompt_count]
  · intro p hp
    simp [add_prompt]
    exact Or.inl hp
  · intro p hp
    simp [add_prompt] at hp
    rcases hp with hp | hp
    · exact Nat.lt_succ_of_lt (hWF p hp)
    · rw [hp]
      exact Nat.lt_succ_self _

/-- Witness for C1: adding a prompt to the concrete one-record store grows
the count from 1 to 2. -/
theorem add_prompt_spec_witness :
    get_prompt_count (add_prompt demoDb "T1" "" "P1" "" "" "" 9).2
      = get_prompt_count demoDb + 1 := by
  obtain ⟨pnew, h1, h2, h3, h4, h5, h6, h7, h8, h9, h10, h11⟩ :=
    add_prompt_spec demoDb "T1" "" "P1" "" "" "" 9 (by decide) (by decide)
      (by decide)
  exact h8

/-- C3: upvoting an id that matches no stored record leaves the store
completely unchanged (the model is a total function, so no error is
signalled to the caller; in particular every field of every record and the
row count are unchanged). -/
theorem upvote_prompt_unknown (db : PromptDatabase) (i : Nat)
    (h : ∀ p ∈ db.prompts, p.id ≠ i) :
    upvote_prompt db i = db := by
  have hmap : db.prompts.map (bumpIf i) = db.prompts := by
    conv_rhs => rw [← List.map_id db.prompts]
    exact List.map_congr_left fun p hp => by simp [bumpIf, h p hp]
  simp [upvote_prompt, hmap]

/-- Witness for C3: upvoting the unknown id 99 on the concrete store is a
no-op. -/
theorem upvote_prompt_unknown_witness :
    upvote_prompt demoDb 99 = demoDb :=
  upvote_prompt_unknown demoDb 99 (by decide)

/-- C5: `filter_by_category` returns exactly the stored records whose
`category` equals the argument (exact, case-sensitive match, as documented
on the definition); in particular records with an empty or different
category are excluded, and a category matching no record yields the empty
list rather than an error. -/
theorem filter_by_category_spec (db : PromptDatabase) (c : String)
    (p : Prompt) :
    p ∈ filter_by_category db c ↔ p ∈ db.prompts ∧ p.category = c := by
  simp [filter_by_category, List.mem_filter]

/-- C6: `get_categories` is duplicate-free and contains exactly the
non-empty category values occurring among the stored records. -/
theorem get_categories_spec (db : PromptDatabase) :
    (get_categories db).Nodup ∧
      ∀ c, c ∈ get_categories db ↔
        c ≠ "" ∧ ∃ p ∈ db.prompts, p.category = c := by
  refine ⟨List.nodup_dedup _, fun c => ?_⟩
  simp [get_categories, List.mem_dedup, List.mem_filter, List.mem_map]
  tauto

/-- C9: the add-prompt form submission handler reports a validation error
exactly when the title or the prompt text is empty, leaves the store
untouched exactly in that case, and hands the store to `add_prompt` exactly
when both required fields are non-empty — so `add_prompt` is never invoked
with an empty title or empty prompt text. -/
theorem add_prompt_form_validation (db : PromptDatabase)
    (title description prompt_text category tags use_case : String)
    (now : Nat) :
    ((handle_submit db title description prompt_text category tags use_case
        now).1 = SubmitResult.validationError ↔
      (title = "" ∨ prompt_text = "")) ∧
    ((handle_submit db title description prompt_text category tags use_case
        now).2 = db ↔ (title = "" ∨ prompt_text = "")) ∧
    ((handle_submit db title description prompt_text category tags use_case
        now).2 = (add_prompt db title description prompt_text category tags
        use_case now).2 ↔ (title ≠ "" ∧ prompt_text ≠ "")) := by
  have hne : (add_prompt db title description prompt_text category tags
      use_case now).2 ≠ db := by
    intro he
    have hl := congrArg (fun d => d.prompts.length) he
    simp [add_prompt] at hl
  by_cases h : title = "" ∨ prompt_text = ""
  · refine ⟨by simp [handle_submit, h], by simp [handle_submit, h], ?_⟩
    simp only [handle_submit, if_pos h]
    constructor
    · intro he
      exact (hne he.symm).elim
    · intro hcon
      rcases h with h | h
      · exact (hcon.1 h).elim
      · exact (hcon.2 h).elim
  · push_neg at h
    refine ⟨?_, ?_, ?_⟩
    · simp [handle_submit, h.1, h.2]
    · simp only [handle_submit, if_neg (by tauto : ¬(title = "" ∨
        prompt_text = ""))]
      constructor
      · intro he
        exact (hne he).elim
      · intro hcon
        rcases hcon with hcon | hcon
        · exact (h.1 hcon).elim
        · exact (h.2 hcon).elim
    · simp [handle_submit, h.1, h.2]

/-- C10: the browse-view dispatch gives search strict precedence — a
non-empty query always yields `search_prompts` regardless of the category;
the category filter applies only with an empty query and a category other
than "All"; with an empty query and "All" selected the view shows
`get_all_prompts`. -/
theorem browse_dispatch (db : PromptDatabase) (q c : String) :
    (q ≠ "" → browse_prompts db q c = search_prompts db q) ∧
    (q = "" → c ≠ "All" → browse_prompts db q c = filter_by_category db c) ∧
    (q = "" → c = "All" → browse_prompts db q c = get_all_prompts db) := by
  refine ⟨?_, ?_, ?_⟩
  · intro hq
    simp [browse_prompts, hq]
  · intro hq hc
    simp [browse_prompts, hq, hc]
  · intro hq hc
    simp [browse_prompts, hq, hc]

/-- Witness for C10: on the concrete store a non-empty query dispatches to
the search operation even though a category is also selected. -/
theorem browse_dispatch_witness :
    browse_prompts demoDb "Sentiment" "Qualitative Analysis"
      = search_prompts demoDb "Sentiment" :=
  (browse_dispatch demoDb "Sentiment" "Qualitative Analysis").1 (by decide)

/-- C4: for a non-empty query, `search_prompts` returns exactly the stored
records in which the query occurs as a case-insensitive substring of the
title or of the prompt text (the two fields the contract requires to be
searched); a query matching no record therefore yields the empty list. -/
theorem search_prompts_spec (db : PromptDatabase) (q : String) (hq : q ≠ "")
    (p : Prompt) :
    p ∈ search_prompts db q ↔
      p ∈ db.prompts ∧
        (ciSubstr q p.title = true ∨ ciSubstr q p.prompt_text = true) := by
  simp [search_prompts, List.mem_filter, promptMatches]

/-- Witness for C4: the query "Sentiment" finds the concrete record titled
"Sentiment Analysis for Interviews". -/
theorem search_prompts_spec_witness :
    demoPrompt ∈ search_prompts demoDb "Sentiment" :=
  (search_prompts_spec demoDb "Sentiment" (by decide) demoPrompt).mpr
    (by decide)

/-- C7: `get_all_prompts` returns every stored record exactly once (it is a
permutation of the table) and is sorted most-recently-created first, ties
on the timestamp broken by the id. -/
theorem get_all_prompts_spec (db : PromptDatabase) :
    List.Perm (get_all_prompts db) db.prompts ∧
      (get_all_prompts db).Pairwise (fun p q => recencyLE p q = true) := by
  constructor
  · exact List.mergeSort_perm db.prompts recencyLE
  · have htrans : ∀ a b c : Prompt, recencyLE a b = true →
        recencyLE b c = true → recencyLE a c = true := by
      intro a b c hab hbc
      simp only [recencyLE, decide_eq_true_eq] at hab hbc ⊢
      omega
    have htotal : ∀ a b : Prompt,
        (recencyLE a b || recencyLE b a) = true := by
      intro a b
      simp only [recencyLE, Bool.or_eq_true, decide_eq_true_eq]
      omega
    exact List.sorted_mergeSort htrans htotal db.prompts

/-- Upvoting an id rewrites the lookup for that id by bumping the counter of
the found record (list-level form). -/
theorem find?_bump (l : List Prompt) (i : Nat) :
    (l.map (bumpIf i)).find? (fun p => p.id == i)
      = (l.find? (fun p => p.id == i)).map
          (fun p => { p with upvotes := p.upvotes + 1 }) := by
  induction l with
  | nil => rfl
  | cons p l ih =>
    by_cases h : p.id = i
    · simp [List.find?_cons, bumpIf, h]
    · simp [List.find?_cons, bumpIf, h, ih]

/-- Upvoting an id rewrites the lookup for that id by bumping the counter of
the found record. -/
theorem find_prompt_upvote (db : PromptDatabase) (i : Nat) :
    find_prompt (upvote_prompt db i) i
      = (find_prompt db i).map
          (fun p => { p with upvotes := p.upvotes + 1 }) :=
  find?_bump db.prompts i

/-- Iterating the upvote of an id bumps the looked-up counter once per
iteration. -/
theorem find_prompt_upvote_iter (i : Nat) :
    ∀ (k : Nat) (db : PromptDatabase),
    find_prompt ((fun d => upvote_prompt d i)^[k] db) i
      = (find_prompt db i).map
          (fun p => { p with upvotes := p.upvotes + k })
  | 0, db => by
    rw [Function.iterate_zero_apply]
    cases h : find_prompt db i
    · rfl
    · rfl
  | (k + 1), db => by
    rw [Function.iterate_succ_apply,
      find_prompt_upvote_iter i k (upvote_prompt db i), find_prompt_upvote]
    cases h : find_prompt db i
    · rfl
    · rename_i val
      have harith : val.upvotes + 1 + k = val.upvotes + (k + 1) := by omega
      simp only [Option.map]
      rw [harith]

/-- C2: when the id references a stored record, upvoting it k times (k at
least 1) yields a record with the upvote counter increased by exactly k and
the id and creation timestamp unchanged, and that record appears in
`get_all_prompts` of the resulting store. -/
theorem upvote_prompt_k_times (db : PromptDatabase) (i k : Nat) (p : Prompt)
    (hk : 1 ≤ k) (h : find_prompt db i = some p) :
    ∃ p' : Prompt,
      find_prompt ((fun d => upvote_prompt d i)^[k] db) i = some p' ∧
      p'.upvotes = p.upvotes + k ∧
      p'.id = p.id ∧
      p'.created_at = p.created_at ∧
      p' ∈ get_all_prompts ((fun d => upvote_prompt d i)^[k] db) := by
  have hfind : find_prompt ((fun d => upvote_prompt d i)^[k] db) i
      = some { p with upvotes := p.upvotes + k } := by
    rw [find_prompt_upvote_iter i k db, h]
    rfl
  refine ⟨{ p with upvotes := p.upvotes + k }, hfind, rfl, rfl, rfl, ?_⟩
  have hmem := List.mem_of_find?_eq_some hfind
  exact ((List.mergeSort_perm _ _).mem_iff).mpr hmem

/-- Witness for C2: upvoting the concrete record (id 1, upvotes 0) twice
yields upvotes 2 with the id and timestamp unchanged. -/
theorem upvote_prompt_k_times_witness :
    ∃ p' : Prompt,
      find_prompt ((fun d => upvote_prompt d 1)^[2] demoDb) 1 = some p' ∧
      p'.upvotes = demoPrompt.upvotes + 2 ∧
      p'.id = demoPrompt.id ∧
      p'.created_at = demoPrompt.created_at ∧
      p' ∈ get_all_prompts ((fun d => upvote_prompt d 1)^[2] demoDb) :=
  upvote_prompt_k_times demoDb 1 2 demoPrompt (by decide) (by decide)

/-- One operation never deletes a stored record, never changes any field
other than the upvote counter, never decreases the counter, and leaves the
record fully unchanged unless the operation is an upvote of its id. -/
theorem applyOp_preserves (db : PromptDatabase) (o : Op) (p : Prompt)
    (hp : p ∈ db.prompts) :
    ∃ p' ∈ (applyOp db o).prompts,
      sameRecordExceptUpvotes p' p ∧ p.upvotes ≤ p'.upvotes ∧
      (touchesUpvote o p.id = false → p' = p) := by
  cases o with
  | add t d pt c tg u n =>
    refine ⟨p, ?_, ⟨rfl, rfl, rfl, rfl, rfl, rfl, rfl, rfl⟩, le_rfl,
      fun _ => rfl⟩
    simp [applyOp, add_prompt]
    exact Or.inl hp
  | upvote i =>
    refine ⟨bumpIf i p, List.mem_map_of_mem _ hp, ?_, ?_, ?_⟩
    · by_cases h : p.id = i <;>
        simp [bumpIf, h, sameRecordExceptUpvotes]
    · by_cases h : p.id = i <;> simp [bumpIf, h]
    · intro htouch
      simp only [touchesUpvote, beq_eq_false_iff_ne, ne_eq] at htouch
      have hne : ¬p.id = i := fun hh => htouch hh.symm
      simp [bumpIf, hne]
  | getAll =>
    exact ⟨p, hp, ⟨rfl, rfl, rfl, rfl, rfl, rfl, rfl, rfl⟩, le_rfl,
      fun _ => rfl⟩
  | search q =>
    exact ⟨p, hp, ⟨rfl, rfl, rfl, rfl, rfl, rfl, rfl, rfl⟩, le_rfl,
      fun _ => rfl⟩
  | filterCat c =>
    exact ⟨p, hp, ⟨rfl, rfl, rfl, rfl, rfl, rfl, rfl, rfl⟩, le_rfl,
      fun _ => rfl⟩
  | getCats =>
    exact ⟨p, hp, ⟨rfl, rfl, rfl, rfl, rfl, rfl, rfl, rfl⟩, le_rfl,
      fun _ => rfl⟩
  | getCount =>
    exact ⟨p, hp, ⟨rfl, rfl, rfl, rfl, rfl, rfl, rfl, rfl⟩, le_rfl,
      fun _ => rfl⟩

/-- C8: across every sequence of the offered operations, a stored record is
never deleted, no field other than its upvote counter ever changes, the
counter never decreases, and the counter changes only through upvotes of
that record's id (with no upvote of its id in the sequence, the record is
unchanged). -/
theorem ops_preserve_records (ops : List Op) :
    ∀ (db : PromptDatabase) (p : Prompt), p ∈ db.prompts →
    ∃ p' ∈ (runOps db ops).prompts,
      sameRecordExceptUpvotes p' p ∧ p.upvotes ≤ p'.upvotes ∧
      ((∀ o ∈ ops, touchesUpvote o p.id = false) → p' = p) := by
  induction ops with
  | nil =>
    intro db p hp
    exact ⟨p, hp, ⟨rfl, rfl, rfl, rfl, rfl, rfl, rfl, rfl⟩, le_rfl,
      fun _ => rfl⟩
  | cons o os ih =>
    intro db p hp
    obtain ⟨p1, hp1, hsame1, hle1, hkeep1⟩ := applyOp_preserves db o p hp
    obtain ⟨p2, hp2, hsame2, hle2, hkeep2⟩ := ih (applyOp db o) p1 hp1
    refine ⟨p2, hp2, ?_, le_trans hle1 hle2, ?_⟩
    · obtain ⟨a1, a2, a3, a4, a5, a6, a7, a8⟩ := hsame1
      obtain ⟨b1, b2, b3, b4, b5, b6, b7, b8⟩ := hsame2
      exact ⟨b1.trans a1, b2.trans a2, b3.trans a3, b4.trans a4,
        b5.trans a5, b6.trans a6, b7.trans a7, b8.trans a8⟩
    · intro hnone
      have h0 : touchesUpvote o p.id = false :=
        hnone o (List.mem_cons_self o os)
      have hp1p : p1 = p := hkeep1 h0
      have hrest : ∀ o2 ∈ os, touchesUpvote o2 p1.id = false := by
        rw [hp1p]
        intro o2 ho2
        exact hnone o2 (List.mem_cons_of_mem o ho2)
      rw [hkeep2 hrest, hp1p]

/-- Witness for C8: running an insertion followed by an upvote of another id
on the concrete store preserves the concrete record as stated. -/
theorem ops_preserve_records_witness :
    ∃ p' ∈ (runOps demoDb
        [Op.add "T2" "" "P2" "" "" "" 7, Op.upvote 2]).prompts,
      sameRecordExceptUpvotes p' demoPrompt ∧
      demoPrompt.upvotes ≤ p'.upvotes ∧
      ((∀ o ∈ [Op.add "T2" "" "P2" "" "" "" 7, Op.upvote 2],
        touchesUpvote o demoPrompt.id = false) → p' = demoPrompt) :=
  ops_preserve_records [Op.add "T2" "" "P2" "" "" "" 7, Op.upvote 2]
    demoDb demoPrompt (by decide)

/-- Witness for C5: the concrete record is returned when filtering by its
exact category. -/
theorem filter_by_category_spec_witness :
    demoPrompt ∈ filter_by_category demoDb "Qualitative Analysis" :=
  (filter_by_category_spec demoDb "Qualitative Analysis" demoPrompt).mpr
    (by decide)

/-- Witness for C6: the concrete store yields its one non-empty category. -/
theorem get_categories_spec_witness :
    "Qualitative Analysis" ∈ get_categories demoDb :=
  ((get_categories_spec demoDb).2 "Qualitative Analysis").mpr (by decide)

/-- Witness for C7: on the concrete store the browse view is a permutation
of the table. -/
theorem get_all_prompts_spec_witness :
    List.Perm (get_all_prompts demoDb) demoDb.prompts :=
  (get_all_prompts_spec demoDb).1

/-- Witness for C9: submitting the form with an empty title on the concrete
store reports a validation error. -/
theorem add_prompt_form_validation_witness :
    (handle_submit demoDb "" "" "P1" "" "" "" 3).1
      = SubmitResult.validationError :=
  (add_prompt_form_validation demoDb "" "" "P1" "" "" "" 3).1.mpr
    (Or.inl rfl)
